import Mathlib

/-
Verification of the `duration-string` library (src/lib.rs): a bidirectional
converter between duration strings such as "1h30m" and a nanosecond-precision
duration value.

Shallow embedding notes:
  * Rust `std::time::Duration` is a pair of a `u64` seconds count and a `u32`
    subsecond nanosecond count (always < 10^9).  We model it as a pair of
    naturals; the checked operations perform the `u64` overflow tests
    explicitly (`< 2^64`), exactly as Rust's `Duration::checked_add` /
    `Duration::checked_mul` do.
  * Characters are modelled by Lean `Char`; the model restricts attention to
    the ASCII subset relevant to the grammar, where Rust's
    `char::is_numeric` agrees with `Char.isDigit` and `char::is_whitespace`
    agrees with `Char.isWhitespace`.
  * `u64::from_str` (called as `parse::<u64>()`) is modelled by `parseU64`:
    empty input is an Empty integer-parse error, a non-digit character is an
    InvalidDigit error, and exceeding `u64::MAX` during accumulation is a
    PosOverflow error, mirroring the standard library's behaviour.
  * `u128::to_string` is modelled by `natToString`, most-significant-first
    decimal digits.
-/

namespace DurationString

/-- Nanosecond multipliers, from `src/lib.rs` lines 92-99. -/
def YEAR_IN_NANO : Nat := 31556926000000000

def WEEK_IN_NANO : Nat := 604800000000000

def DAY_IN_NANO : Nat := 86400000000000

def HOUR_IN_NANO : Nat := 3600000000000

def MINUTE_IN_NANO : Nat := 60000000000

def SECOND_IN_NANO : Nat := 1000000000

def MILLISECOND_IN_NANO : Nat := 1000000

def MICROSECOND_IN_NANO : Nat := 1000

/-- Seconds multipliers, from `src/lib.rs` lines 101-105. -/
def HOUR_IN_SECONDS : Nat := 3600

def MINUTE_IN_SECONDS : Nat := 60

def DAY_IN_SECONDS : Nat := 86400

def WEEK_IN_SECONDS : Nat := 604800

def YEAR_IN_SECONDS : Nat := 31556926

/-- One more than `u64::MAX`: the first value that overflows a `u64`. -/
def U64_SIZE : Nat := 2 ^ 64

/-- Rust `std::time::Duration`: `u64` seconds plus subsecond nanoseconds.
All constructors used by the library keep `nanos < 10^9` and `secs < 2^64`. -/
structure Duration where
  secs : Nat
  nanos : Nat
deriving DecidableEq, Repr

/-- The well-formedness invariant Rust's `Duration` representation carries. -/
def Duration.wf (d : Duration) : Prop := d.secs < U64_SIZE ∧ d.nanos < SECOND_IN_NANO

instance (d : Duration) : Decidable d.wf := by
  unfold Duration.wf; infer_instance

/-- Rust `Duration::new(0, 0)`, the running total's initial value (line 240). -/
def Duration.zero : Duration := ⟨0, 0⟩

/-- Rust `Duration::from_secs`. -/
def Duration.fromSecs (s : Nat) : Duration := ⟨s, 0⟩

/-- Rust `Duration::from_nanos` (argument is a `u64`). -/
def Duration.fromNanos (n : Nat) : Duration :=
  ⟨n / SECOND_IN_NANO, n % SECOND_IN_NANO⟩

/-- Rust `Duration::from_micros` (argument is a `u64`). -/
def Duration.fromMicros (n : Nat) : Duration :=
  ⟨n / 1000000, n % 1000000 * 1000⟩

/-- Rust `Duration::from_millis` (argument is a `u64`). -/
def Duration.fromMillis (n : Nat) : Duration :=
  ⟨n / 1000, n % 1000 * 1000000⟩

/-- Rust `Duration::checked_mul(self, rhs: u32)`: multiplies seconds and nanosecond
parts, carrying whole seconds out of the nanosecond product, and fails when
the resulting seconds count overflows a `u64`. -/
def Duration.checkedMul (d : Duration) (rhs : Nat) : Option Duration :=
  let totalNanos := d.nanos * rhs
  let extraSecs := totalNanos / SECOND_IN_NANO
  let nanos := totalNanos % SECOND_IN_NANO
  if d.secs * rhs < U64_SIZE then
    if d.secs * rhs + extraSecs < U64_SIZE then
      some ⟨d.secs * rhs + extraSecs, nanos⟩
    else none
  else none

/-- Rust `Duration::checked_add`: adds the seconds counts (failing on `u64`
overflow), adds the nanosecond parts, and carries one second when they reach
10^9 (again failing if that carry overflows). -/
def Duration.checkedAdd (d : Duration) (rhs : Duration) : Option Duration :=
  if d.secs + rhs.secs < U64_SIZE then
    if d.nanos + rhs.nanos ≥ SECOND_IN_NANO then
      if d.secs + rhs.secs + 1 < U64_SIZE then
        some ⟨d.secs + rhs.secs + 1, d.nanos + rhs.nanos - SECOND_IN_NANO⟩
      else none
    else some ⟨d.secs + rhs.secs, d.nanos + rhs.nanos⟩
  else none

/-- Rust `Duration::as_nanos`: the total nanosecond count as a `u128` (which can
hold the entire range, so no reduction is needed). -/
def Duration.asNanos (d : Duration) : Nat :=
  d.secs * SECOND_IN_NANO + d.nanos

/-- The kinds of `std::num::ParseIntError` reachable from `u64::from_str` on
this library's inputs. -/
inductive ParseIntErrorKind where
  | Empty
  | InvalidDigit
  | PosOverflow
deriving DecidableEq, Repr

/-- The library's error enum (`src/lib.rs` lines 109-114). -/
inductive Error where
  | Format
  | Overflow
  | ParseInt (kind : ParseIntErrorKind)
deriving DecidableEq, Repr

/-- Accumulator loop of `u64::from_str`: left-to-right over the characters,
rejecting a non-digit and rejecting any intermediate value that no longer
fits in a `u64`. -/
def parseU64Core : List Char → Nat → Except ParseIntErrorKind Nat
  | [], acc => .ok acc
  | c :: cs, acc =>
    if c.isDigit then
      if acc * 10 + (c.toNat - 48) < U64_SIZE then
        parseU64Core cs (acc * 10 + (c.toNat - 48))
      else .error .PosOverflow
    else .error .InvalidDigit

/-- Rust `str::parse::<u64>()` as called on a digit group (line 242): empty input
is an Empty error, otherwise the accumulator loop runs. -/
def parseU64 : List Char → Except ParseIntErrorKind Nat
  | [] => .error .Empty
  | c :: cs => parseU64Core (c :: cs) 0

/-- Decimal digits of `n`, most significant first, pushed onto `acc`; the
first argument is recursion fuel (any value exceeding the digit count gives
the same result). Models the digit-extraction loop of integer `to_string`. -/
def toDecimalAux : Nat → Nat → List Char → List Char
  | 0, _, acc => acc
  | fuel + 1, n, acc =>
    if n < 10 then Nat.digitChar n :: acc
    else toDecimalAux fuel (n / 10) (Nat.digitChar (n % 10) :: acc)

/-- Decimal representation of `n`, most significant digit first. -/
def toDecimal (n : Nat) : List Char := toDecimalAux (n + 1) n []

/-- Model of integer `to_string` (used by the formatter at lines 176-199). -/
def natToString (n : Nat) : String := String.mk (toDecimal n)

/-- One group is a (digit run, letter run) pair of characters, exactly as the
`Vec<(Vec<char>, Vec<char>)>` entries of `from_str`. -/
abbrev Group := List Char × List Char

/-- The grouping loop of `from_str` (lines 223-235), written as recursion
over the character list with one-character lookahead: the current character
joins the current group's digit or letter run, and a new group starts when a
non-digit character is immediately followed by a digit. -/
def groupDurations : List Char → Group → List Group
  | [], g => [g]
  | [c], g => [if c.isDigit then (g.1 ++ [c], g.2) else (g.1, g.2 ++ [c])]
  | c :: c2 :: cs, g =>
    if !c.isDigit && c2.isDigit then
      (if c.isDigit then (g.1 ++ [c], g.2) else (g.1, g.2 ++ [c]))
        :: groupDurations (c2 :: cs) ([], [])
    else
      groupDurations (c2 :: cs)
        (if c.isDigit then (g.1 ++ [c], g.2) else (g.1, g.2 ++ [c]))

/-- The closure `multiply_period` (lines 246-250):
`Duration::from_secs(period).checked_mul(multiplier).ok_or(Error::Overflow)`. -/
def multiplyPeriod (period : Nat) (multiplier : Nat) : Except Error Duration :=
  match (Duration.fromSecs period).checkedMul multiplier with
  | some d => .ok d
  | none => .error .Overflow

/-- The unit-suffix match of `from_str` (lines 251-262): sub-second units are
built directly in the nanosecond domain, minute-and-above units go through
`multiply_period`, anything else is a Format error. -/
def periodDuration (period : Nat) (format : String) : Except Error Duration :=
  if format = "ns" then .ok (Duration.fromNanos period)
  else if format = "us" then .ok (Duration.fromMicros period)
  else if format = "ms" then .ok (Duration.fromMillis period)
  else if format = "s" then .ok (Duration.fromSecs period)
  else if format = "m" then multiplyPeriod period MINUTE_IN_SECONDS
  else if format = "h" then multiplyPeriod period HOUR_IN_SECONDS
  else if format = "d" then multiplyPeriod period DAY_IN_SECONDS
  else if format = "w" then multiplyPeriod period WEEK_IN_SECONDS
  else if format = "y" then multiplyPeriod period YEAR_IN_SECONDS
  else .error .Format

/-- The accumulation loop of `from_str` (lines 240-266): parse each group's
magnitude, convert it with its unit, and add it to the running total with
`checked_add`, any failure aborting the whole parse. -/
def accumGroups : List Group → Duration → Except Error Duration
  | [], total => .ok total
  | (period, format) :: rest, total =>
    match parseU64 period with
    | .error e => .error (.ParseInt e)
    | .ok p =>
      match periodDuration p (String.mk format) with
      | .error e => .error e
      | .ok pd =>
        match total.checkedAdd pd with
        | none => .error .Overflow
        | some t => accumGroups rest t

/-- The impl `FromStr::from_str` (lines 220-268): strip whitespace, group the
characters, reject an empty group list with a Format error (the group list
is initialised non-empty, so this branch is in fact unreachable), then
accumulate the groups. -/
def fromStr (duration : String) : Except Error Duration :=
  let chars := duration.data.filter (fun c => !c.isWhitespace)
  let grouped := groupDurations chars ([], [])
  if grouped.isEmpty then .error .Format
  else accumGroups grouped Duration.zero

/-- The impl `From<DurationString> for String` (lines 172-201): test each unit from
largest to smallest for exact divisibility of the nanosecond count and emit
the quotient with the first matching suffix, falling back to raw
nanoseconds. -/
def intoString (value : Duration) : String :=
  let ns := value.asNanos
  if ns % YEAR_IN_NANO = 0 then natToString (ns / YEAR_IN_NANO) ++ "y"
  else if ns % WEEK_IN_NANO = 0 then natToString (ns / WEEK_IN_NANO) ++ "w"
  else if ns % DAY_IN_NANO = 0 then natToString (ns / DAY_IN_NANO) ++ "d"
  else if ns % HOUR_IN_NANO = 0 then natToString (ns / HOUR_IN_NANO) ++ "h"
  else if ns % MINUTE_IN_NANO = 0 then natToString (ns / MINUTE_IN_NANO) ++ "m"
  else if ns % SECOND_IN_NANO = 0 then natToString (ns / SECOND_IN_NANO) ++ "s"
  else if ns % MILLISECOND_IN_NANO = 0 then
    natToString (ns / MILLISECOND_IN_NANO) ++ "ms"
  else if ns % MICROSECOND_IN_NANO = 0 then
    natToString (ns / MICROSECOND_IN_NANO) ++ "us"
  else natToString ns ++ "ns"

/-- Rust `Vec::last_mut` followed by `unwrap` and an in-place update, as used on
`grouped_durations` (lines 226, 228): `none` models the panic that would
occur on an empty vector. -/
def modifyLast : List Group → (Group → Group) → Option (List Group)
  | [], _ => none
  | [g], f => some [f g]
  | g :: g2 :: rest, f =>
    match modifyLast (g2 :: rest) f with
    | some gs => some (g :: gs)
    | none => none

/-- The grouping loop of `from_str` exactly as written in Rust (lines
223-235): the running group vector is threaded through, every character is
pushed into the last group via `last_mut().unwrap()` (modelled by
`modifyLast`, with `none` standing for the unwrap panic), and a fresh empty
group is appended at each letter-to-digit boundary. -/
def groupLoop : List Char → List Group → Option (List Group)
  | [], gs => some gs
  | [c], gs =>
    match modifyLast gs
        (fun g => if c.isDigit then (g.1 ++ [c], g.2) else (g.1, g.2 ++ [c])) with
    | none => none
    | some gs2 => some gs2
  | c :: c2 :: cs, gs =>
    match modifyLast gs
        (fun g => if c.isDigit then (g.1 ++ [c], g.2) else (g.1, g.2 ++ [c])) with
    | none => none
    | some gs2 =>
      if !c.isDigit && c2.isDigit then groupLoop (c2 :: cs) (gs2 ++ [([], [])])
      else groupLoop (c2 :: cs) gs2

/-- Variant of `from_str` with the grouping loop taken verbatim from the source,
including the possibility of an `unwrap` panic (`none`). -/
def fromStrLoop (duration : String) : Option (Except Error Duration) :=
  let chars := duration.data.filter (fun c => !c.isWhitespace)
  match groupLoop chars [([], [])] with
  | none => none
  | some grouped =>
    some (if grouped.isEmpty then .error .Format else accumGroups grouped Duration.zero)

/-- The ordered unit table of the formatter, largest to smallest, as the
spec describes it (suffix, nanoseconds per unit). -/
def unitTable : List (String × Nat) :=
  [("y", YEAR_IN_NANO), ("w", WEEK_IN_NANO), ("d", DAY_IN_NANO),
   ("h", HOUR_IN_NANO), ("m", MINUTE_IN_NANO), ("s", SECOND_IN_NANO),
   ("ms", MILLISECOND_IN_NANO), ("us", MICROSECOND_IN_NANO)]

/-- Modelled from the spec: format by finding the FIRST unit in the
largest-to-smallest table whose nanosecond length divides the total exactly,
emitting quotient plus suffix, with a raw-nanosecond fallback. Used to check
the formatter against the spec's description. -/
def formatSpec (value : Duration) : String :=
  let ns := value.asNanos
  match unitTable.find? (fun u => ns % u.2 == 0) with
  | some u => natToString (ns / u.2) ++ u.1
  | none => natToString ns ++ "ns"

/-- The (quotient, suffix) pair the formatter emits, following the same
divisibility cascade as `intoString`. -/
def formatParts (value : Duration) : Nat × String :=
  let ns := value.asNanos
  if ns % YEAR_IN_NANO = 0 then (ns / YEAR_IN_NANO, "y")
  else if ns % WEEK_IN_NANO = 0 then (ns / WEEK_IN_NANO, "w")
  else if ns % DAY_IN_NANO = 0 then (ns / DAY_IN_NANO, "d")
  else if ns % HOUR_IN_NANO = 0 then (ns / HOUR_IN_NANO, "h")
  else if ns % MINUTE_IN_NANO = 0 then (ns / MINUTE_IN_NANO, "m")
  else if ns % SECOND_IN_NANO = 0 then (ns / SECOND_IN_NANO, "s")
  else if ns % MILLISECOND_IN_NANO = 0 then (ns / MILLISECOND_IN_NANO, "ms")
  else if ns % MICROSECOND_IN_NANO = 0 then (ns / MICROSECOND_IN_NANO, "us")
  else (ns, "ns")

/-- Numeric value of a most-significant-first digit string, used to relate
`parseU64` to the number it reads. -/
def strVal (cs : List Char) : Nat :=
  cs.foldl (fun a c => a * 10 + (c.toNat - 48)) 0

/-- The nine unit suffixes accepted by the parser. -/
def unitSuffixes : List String := ["ns", "us", "ms", "s", "m", "h", "d", "w", "y"]

instance : DecidableEq (Except Error Duration) := fun a b =>
  match a, b with
  | .ok x, .ok y => decidable_of_iff (x = y) (by simp)
  | .error e, .error f => decidable_of_iff (e = f) (by simp)
  | .ok _, .error _ => isFalse (by simp)
  | .error _, .ok _ => isFalse (by simp)

example : fromStr "100ms" = .ok ⟨0, 100000000⟩ := by decide
example : fromStr "1h30m" = .ok ⟨5400, 0⟩ := by decide
example : fromStr "" = .error (.ParseInt .Empty) := by decide
example : fromStr "1234" = .error .Format := by decide
example : fromStr "ms" = .error (.ParseInt .Empty) := by decide
example : intoString ⟨0, 0⟩ = "0y" := by decide
example : intoString ⟨61, 0⟩ = "61s" := by decide

theorem isDigit_not_whitespace {c : Char} (h : c.isDigit = true) :
    c.isWhitespace = false := by
  rcases hw : c.isWhitespace with _ | _
  · rfl
  · simp only [Char.isWhitespace, Bool.or_eq_true, decide_eq_true_eq] at hw
    rcases hw with ((h1 | h1) | h1) | h1 <;> subst h1 <;> exact absurd h (by decide)

theorem digitChar_isDigit {d : Nat} (h : d < 10) :
    (Nat.digitChar d).isDigit = true := by
  interval_cases d <;> decide

theorem digitChar_toNat {d : Nat} (h : d < 10) :
    (Nat.digitChar d).toNat - 48 = d := by
  interval_cases d <;> decide

theorem toDecimalAux_eq (n : Nat) : ∀ (fuel : Nat) (acc : List Char),
    n < fuel → toDecimalAux fuel n acc = toDecimal n ++ acc := by
  induction n using Nat.strong_induction_on with
  | _ n ih =>
    intro fuel acc hfuel
    match fuel with
    | 0 => omega
    | f + 1 =>
      by_cases h10 : n < 10
      · simp [toDecimalAux, toDecimal, h10]
      · have hdiv : n / 10 < n := Nat.div_lt_self (by omega) (by omega)
        have l1 : toDecimalAux (f + 1) n acc
            = toDecimal (n / 10) ++ (Nat.digitChar (n % 10) :: acc) := by
          rw [toDecimalAux, if_neg h10, ih (n / 10) hdiv f _ (by omega)]
        have l2 : toDecimal n
            = toDecimal (n / 10) ++ [Nat.digitChar (n % 10)] := by
          rw [toDecimal, toDecimalAux, if_neg h10, ih (n / 10) hdiv n _ (by omega)]
        rw [l1, l2, List.append_assoc, List.singleton_append]

theorem toDecimal_lt {n : Nat} (h : n < 10) :
    toDecimal n = [Nat.digitChar n] := by
  simp [toDecimal, toDecimalAux, h]

theorem toDecimal_ge {n : Nat} (h : 10 ≤ n) :
    toDecimal n = toDecimal (n / 10) ++ [Nat.digitChar (n % 10)] := by
  rw [toDecimal, toDecimalAux, if_neg (by omega),
    toDecimalAux_eq (n / 10) n _ (Nat.div_lt_self (by omega) (by omega))]

theorem toDecimal_ne_nil (n : Nat) : toDecimal n ≠ [] := by
  by_cases h : n < 10
  · rw [toDecimal_lt h]; simp
  · rw [toDecimal_ge (by omega)]; simp

theorem toDecimal_isDigit (n : Nat) : ∀ c ∈ toDecimal n, c.isDigit = true := by
  induction n using Nat.strong_induction_on with
  | _ n ih =>
    by_cases h : n < 10
    · rw [toDecimal_lt h]
      intro c hc
      rw [List.mem_singleton] at hc
      subst hc
      exact digitChar_isDigit h
    · rw [toDecimal_ge (by omega)]
      intro c hc
      rcases List.mem_append.mp hc with hc | hc
      · exact ih (n / 10) (Nat.div_lt_self (by omega) (by omega)) c hc
      · rw [List.mem_singleton] at hc
        subst hc
        exact digitChar_isDigit (Nat.mod_lt _ (by omega))

theorem strVal_toDecimal (n : Nat) : strVal (toDecimal n) = n := by
  induction n using Nat.strong_induction_on with
  | _ n ih =>
    by_cases h : n < 10
    · rw [toDecimal_lt h]
      simp [strVal, digitChar_toNat h]
    · have h1 := ih (n / 10) (Nat.div_lt_self (by omega) (by omega))
      rw [toDecimal_ge (by omega)]
      simp only [strVal, List.foldl_append, List.foldl_cons, List.foldl_nil] at h1 ⊢
      rw [h1, digitChar_toNat (Nat.mod_lt _ (by omega))]
      omega

theorem foldl_digits_ge (cs : List Char) : ∀ a : Nat,
    a ≤ cs.foldl (fun x c => x * 10 + (c.toNat - 48)) a := by
  induction cs with
  | nil => intro a; simp
  | cons c cs ih =>
    intro a
    simp only [List.foldl_cons]
    exact le_trans (by omega) (ih (a * 10 + (c.toNat - 48)))

theorem parseU64Core_eq (cs : List Char) : ∀ acc : Nat,
    (∀ c ∈ cs, c.isDigit = true) →
    cs.foldl (fun x c => x * 10 + (c.toNat - 48)) acc < U64_SIZE →
    parseU64Core cs acc
      = .ok (cs.foldl (fun x c => x * 10 + (c.toNat - 48)) acc) := by
  induction cs with
  | nil => intro acc _ _; rfl
  | cons c cs ih =>
    intro acc hdig hlt
    have hc : c.isDigit = true := hdig c (List.mem_cons_self c cs)
    simp only [List.foldl_cons] at hlt
    have hstep : acc * 10 + (c.toNat - 48) < U64_SIZE :=
      lt_of_le_of_lt (foldl_digits_ge cs _) hlt
    rw [parseU64Core, if_pos hc, if_pos hstep,
      ih _ (fun c2 hc2 => hdig c2 (List.mem_cons_of_mem _ hc2)) hlt]
    simp [List.foldl_cons]

theorem parseU64_toDecimal {n : Nat} (h : n < U64_SIZE) :
    parseU64 (toDecimal n) = .ok n := by
  have hval : strVal (toDecimal n) = n := strVal_toDecimal n
  simp only [strVal] at hval
  have h2 := parseU64Core_eq (toDecimal n) 0 (toDecimal_isDigit n)
    (by rw [hval]; exact h)
  rw [hval] at h2
  obtain ⟨c, cs, hcs⟩ := List.exists_cons_of_ne_nil (toDecimal_ne_nil n)
  rw [hcs] at h2 ⊢
  rw [parseU64]
  exact h2

theorem groupDurations_digits (D : List Char) : ∀ (rest : List Char) (g : Group),
    (∀ c ∈ D, c.isDigit = true) →
    groupDurations (D ++ rest) g = groupDurations rest (g.1 ++ D, g.2) := by
  induction D with
  | nil => intro rest g _; simp
  | cons c D ih =>
    intro rest g hdig
    have hc : c.isDigit = true := hdig c (List.mem_cons_self c D)
    have hdig2 : ∀ c2 ∈ D, c2.isDigit = true :=
      fun c2 hc2 => hdig c2 (List.mem_cons_of_mem _ hc2)
    cases hDr : D ++ rest with
    | nil =>
      obtain ⟨hD, hrest⟩ := List.append_eq_nil.mp hDr
      subst hD hrest
      simp [groupDurations, hc]
    | cons c2 cs2 =>
      rw [List.cons_append, hDr, groupDurations, if_neg (by simp [hc]), ← hDr,
        ih rest _ hdig2, if_pos hc]
      simp

theorem groupDurations_letters_end (U : List Char) : ∀ g : Group,
    U ≠ [] → (∀ c ∈ U, c.isDigit = false) →
    groupDurations U g = [(g.1, g.2 ++ U)] := by
  induction U with
  | nil => intro g h _; exact absurd rfl h
  | cons c U ih =>
    intro g _ hnd
    have hc : c.isDigit = false := hnd c (List.mem_cons_self c U)
    have hnd2 : ∀ c2 ∈ U, c2.isDigit = false :=
      fun c2 hc2 => hnd c2 (List.mem_cons_of_mem _ hc2)
    cases U with
    | nil => simp [groupDurations, hc]
    | cons c2 U2 =>
      have hc2 : c2.isDigit = false := hnd2 c2 (List.mem_cons_self c2 U2)
      rw [groupDurations, if_neg (by simp [hc2]), if_neg (by simp [hc]),
        ih _ (by simp) hnd2]
      simp

theorem groupDurations_letters_cont (U : List Char) :
    ∀ (c2 : Char) (rest2 : List Char) (g : Group),
    U ≠ [] → (∀ c ∈ U, c.isDigit = false) → c2.isDigit = true →
    groupDurations (U ++ c2 :: rest2) g
      = (g.1, g.2 ++ U) :: groupDurations (c2 :: rest2) ([], []) := by
  induction U with
  | nil => intro c2 rest2 g h _ _; exact absurd rfl h
  | cons c U ih =>
    intro c2 rest2 g _ hnd hc2
    have hc : c.isDigit = false := hnd c (List.mem_cons_self c U)
    have hnd2 : ∀ a ∈ U, a.isDigit = false :=
      fun a ha => hnd a (List.mem_cons_of_mem _ ha)
    cases U with
    | nil =>
      rw [List.singleton_append, groupDurations,
        if_pos (by simp [hc, hc2]), if_neg (by simp [hc])]
    | cons c3 U3 =>
      have hc3 : c3.isDigit = false := hnd2 c3 (List.mem_cons_self c3 U3)
      rw [List.cons_append, List.cons_append, groupDurations,
        if_neg (by simp [hc3]), if_neg (by simp [hc]), ← List.cons_append,
        ih c2 rest2 _ (by simp) hnd2 hc2]
      simp

theorem modifyLast_append (gs : List Group) : ∀ (g : Group) (f : Group → Group),
    modifyLast (gs ++ [g]) f = some (gs ++ [f g]) := by
  induction gs with
  | nil => intro g f; rfl
  | cons g1 gs ih =>
    intro g f
    cases gs with
    | nil => rfl
    | cons g2 gs2 =>
      have hih := ih g f
      simp only [List.cons_append] at hih ⊢
      rw [modifyLast, hih]

theorem groupLoop_eq (cs : List Char) : ∀ (gs : List Group) (g : Group),
    groupLoop cs (gs ++ [g]) = some (gs ++ groupDurations cs g) := by
  induction cs with
  | nil => intro gs g; simp [groupLoop, groupDurations]
  | cons c cs ih =>
    intro gs g
    cases cs with
    | nil =>
      rw [groupLoop, modifyLast_append]
      simp [groupDurations]
    | cons c2 cs2 =>
      rw [groupLoop, modifyLast_append]
      by_cases hcond : (!c.isDigit && c2.isDigit) = true
      · rw [groupDurations, if_pos hcond]
        have hih := ih
          (gs ++ [if c.isDigit then (g.1 ++ [c], g.2) else (g.1, g.2 ++ [c])])
          ([], [])
        simp only [List.append_assoc, List.singleton_append] at hih ⊢
        rw [if_pos hcond, hih]
      · rw [groupDurations, if_neg hcond]
        simp only
        rw [if_neg hcond, ih]

theorem fromStrLoop_eq_fromStr (s : String) : fromStrLoop s = some (fromStr s) := by
  rw [fromStrLoop, fromStr]
  have h := groupLoop_eq (s.data.filter fun c => !c.isWhitespace) [] ([], [])
  rw [List.nil_append] at h
  rw [h]
  simp

theorem checkedAdd_comm (a b : Duration) : a.checkedAdd b = b.checkedAdd a := by
  unfold Duration.checkedAdd
  rw [Nat.add_comm a.secs b.secs, Nat.add_comm a.nanos b.nanos]

theorem zero_checkedAdd {d : Duration} (hs : d.secs < U64_SIZE)
    (hn : d.nanos < SECOND_IN_NANO) : Duration.zero.checkedAdd d = some d := by
  unfold Duration.checkedAdd Duration.zero
  simp only [Nat.zero_add]
  rw [if_pos hs, if_neg (by omega)]

theorem zero_checkedAdd_inv {pd t : Duration} (hn : pd.nanos < SECOND_IN_NANO)
    (h : Duration.zero.checkedAdd pd = some t) :
    t = pd ∧ pd.secs < U64_SIZE := by
  unfold Duration.checkedAdd Duration.zero at h
  simp only [Nat.zero_add] at h
  rw [if_neg (show ¬ pd.nanos ≥ SECOND_IN_NANO by omega)] at h
  by_cases h1 : pd.secs < U64_SIZE
  · rw [if_pos h1] at h
    exact ⟨(Option.some.inj h).symm, h1⟩
  · rw [if_neg h1] at h
    cases h

theorem multiplyPeriod_eq_ok {p m : Nat} (h : p * m < U64_SIZE) :
    multiplyPeriod p m = .ok ⟨p * m, 0⟩ := by
  unfold multiplyPeriod Duration.checkedMul Duration.fromSecs
  simp [h]

theorem multiplyPeriod_ok {p m : Nat} {d : Duration}
    (h : multiplyPeriod p m = .ok d) : d = ⟨p * m, 0⟩ ∧ p * m < U64_SIZE := by
  unfold multiplyPeriod Duration.checkedMul Duration.fromSecs at h
  simp only [Nat.zero_mul, Nat.zero_div, Nat.zero_mod, Nat.add_zero] at h
  by_cases h1 : p * m < U64_SIZE
  · rw [if_pos h1, if_pos h1] at h
    change Except.ok (⟨p * m, 0⟩ : Duration) = Except.ok d at h
    exact ⟨(Except.ok.inj h).symm, h1⟩
  · rw [if_neg h1] at h
    change Except.error Error.Overflow = Except.ok d at h
    cases h

theorem periodDuration_y (p : Nat) :
    periodDuration p "y" = multiplyPeriod p YEAR_IN_SECONDS := rfl

theorem periodDuration_w (p : Nat) :
    periodDuration p "w" = multiplyPeriod p WEEK_IN_SECONDS := rfl

theorem periodDuration_d (p : Nat) :
    periodDuration p "d" = multiplyPeriod p DAY_IN_SECONDS := rfl

theorem periodDuration_h (p : Nat) :
    periodDuration p "h" = multiplyPeriod p HOUR_IN_SECONDS := rfl

theorem periodDuration_m (p : Nat) :
    periodDuration p "m" = multiplyPeriod p MINUTE_IN_SECONDS := rfl

theorem periodDuration_s (p : Nat) :
    periodDuration p "s" = .ok (Duration.fromSecs p) := rfl

theorem periodDuration_ms (p : Nat) :
    periodDuration p "ms" = .ok (Duration.fromMillis p) := rfl

theorem periodDuration_us (p : Nat) :
    periodDuration p "us" = .ok (Duration.fromMicros p) := rfl

theorem periodDuration_ns (p : Nat) :
    periodDuration p "ns" = .ok (Duration.fromNanos p) := rfl

theorem fromNanos_nanos_lt (p : Nat) :
    (Duration.fromNanos p).nanos < SECOND_IN_NANO := by
  show p % 1000000000 < 1000000000
  omega

theorem fromMicros_nanos_lt (p : Nat) :
    (Duration.fromMicros p).nanos < SECOND_IN_NANO := by
  show p % 1000000 * 1000 < 1000000000
  omega

theorem fromMillis_nanos_lt (p : Nat) :
    (Duration.fromMillis p).nanos < SECOND_IN_NANO := by
  show p % 1000 * 1000000 < 1000000000
  omega

theorem fromSecs_nanos_lt (p : Nat) :
    (Duration.fromSecs p).nanos < SECOND_IN_NANO := by
  show 0 < 1000000000
  omega

theorem fromNanos_secs_le (p : Nat) : (Duration.fromNanos p).secs ≤ p :=
  Nat.div_le_self p SECOND_IN_NANO

theorem fromMicros_secs_le (p : Nat) : (Duration.fromMicros p).secs ≤ p :=
  Nat.div_le_self p 1000000

theorem fromMillis_secs_le (p : Nat) : (Duration.fromMillis p).secs ≤ p :=
  Nat.div_le_self p 1000

theorem fromSecs_secs_le (p : Nat) : (Duration.fromSecs p).secs ≤ p :=
  Nat.le_refl p

theorem periodDuration_nanos_lt {p : Nat} {u : String} {d : Duration}
    (h : periodDuration p u = .ok d) : d.nanos < SECOND_IN_NANO := by
  unfold periodDuration at h
  by_cases h1 : u = "ns"
  · rw [if_pos h1] at h; cases h; exact fromNanos_nanos_lt p
  rw [if_neg h1] at h
  by_cases h2 : u = "us"
  · rw [if_pos h2] at h; cases h; exact fromMicros_nanos_lt p
  rw [if_neg h2] at h
  by_cases h3 : u = "ms"
  · rw [if_pos h3] at h; cases h; exact fromMillis_nanos_lt p
  rw [if_neg h3] at h
  by_cases h4 : u = "s"
  · rw [if_pos h4] at h; cases h; exact fromSecs_nanos_lt p
  rw [if_neg h4] at h
  by_cases h5 : u = "m"
  · rw [if_pos h5] at h
    obtain ⟨hd, _⟩ := multiplyPeriod_ok h
    subst hd
    simp [SECOND_IN_NANO]
  rw [if_neg h5] at h
  by_cases h6 : u = "h"
  · rw [if_pos h6] at h
    obtain ⟨hd, _⟩ := multiplyPeriod_ok h
    subst hd
    simp [SECOND_IN_NANO]
  rw [if_neg h6] at h
  by_cases h7 : u = "d"
  · rw [if_pos h7] at h
    obtain ⟨hd, _⟩ := multiplyPeriod_ok h
    subst hd
    simp [SECOND_IN_NANO]
  rw [if_neg h7] at h
  by_cases h8 : u = "w"
  · rw [if_pos h8] at h
    obtain ⟨hd, _⟩ := multiplyPeriod_ok h
    subst hd
    simp [SECOND_IN_NANO]
  rw [if_neg h8] at h
  by_cases h9 : u = "y"
  · rw [if_pos h9] at h
    obtain ⟨hd, _⟩ := multiplyPeriod_ok h
    subst hd
    simp [SECOND_IN_NANO]
  rw [if_neg h9] at h
  cases h

theorem periodDuration_secs_lt {p : Nat} {u : String} {d : Duration}
    (h : periodDuration p u = .ok d) (hp : p < U64_SIZE) :
    d.secs < U64_SIZE := by
  unfold periodDuration at h
  by_cases h1 : u = "ns"
  · rw [if_pos h1] at h; cases h; exact lt_of_le_of_lt (fromNanos_secs_le p) hp
  rw [if_neg h1] at h
  by_cases h2 : u = "us"
  · rw [if_pos h2] at h; cases h; exact lt_of_le_of_lt (fromMicros_secs_le p) hp
  rw [if_neg h2] at h
  by_cases h3 : u = "ms"
  · rw [if_pos h3] at h; cases h; exact lt_of_le_of_lt (fromMillis_secs_le p) hp
  rw [if_neg h3] at h
  by_cases h4 : u = "s"
  · rw [if_pos h4] at h; cases h; exact lt_of_le_of_lt (fromSecs_secs_le p) hp
  rw [if_neg h4] at h
  by_cases h5 : u = "m"
  · rw [if_pos h5] at h
    obtain ⟨hd, hlt⟩ := multiplyPeriod_ok h
    subst hd
    exact hlt
  rw [if_neg h5] at h
  by_cases h6 : u = "h"
  · rw [if_pos h6] at h
    obtain ⟨hd, hlt⟩ := multiplyPeriod_ok h
    subst hd
    exact hlt
  rw [if_neg h6] at h
  by_cases h7 : u = "d"
  · rw [if_pos h7] at h
    obtain ⟨hd, hlt⟩ := multiplyPeriod_ok h
    subst hd
    exact hlt
  rw [if_neg h7] at h
  by_cases h8 : u = "w"
  · rw [if_pos h8] at h
    obtain ⟨hd, hlt⟩ := multiplyPeriod_ok h
    subst hd
    exact hlt
  rw [if_neg h8] at h
  by_cases h9 : u = "y"
  · rw [if_pos h9] at h
    obtain ⟨hd, hlt⟩ := multiplyPeriod_ok h
    subst hd
    exact hlt
  rw [if_neg h9] at h
  cases h

theorem filter_not_ws {l : List Char} (h : ∀ c ∈ l, c.isWhitespace = false) :
    l.filter (fun c => !c.isWhitespace) = l := by
  apply List.filter_eq_self.mpr
  intro a ha
  simp [h a ha]

theorem suffix_data_facts {u : String} (hu : u ∈ unitSuffixes) :
    u.data ≠ [] ∧ ∀ c ∈ u.data, c.isDigit = false ∧ c.isWhitespace = false := by
  simp only [unitSuffixes, List.mem_cons, List.not_mem_nil, or_false] at hu
  rcases hu with h | h | h | h | h | h | h | h | h <;> subst h <;>
    exact ⟨by decide, by decide⟩

theorem fromStr_single (q : Nat) (u : String) (hu : u ∈ unitSuffixes) :
    fromStr (natToString q ++ u)
      = accumGroups [(toDecimal q, u.data)] Duration.zero := by
  obtain ⟨hne, hfacts⟩ := suffix_data_facts hu
  have hdata : (natToString q ++ u).data = toDecimal q ++ u.data := rfl
  have hfilter : ((natToString q ++ u).data.filter fun c => !c.isWhitespace)
      = toDecimal q ++ u.data := by
    rw [hdata]
    apply filter_not_ws
    intro c hc
    rcases List.mem_append.mp hc with hc | hc
    · exact isDigit_not_whitespace (toDecimal_isDigit q c hc)
    · exact (hfacts c hc).2
  have hgroup : groupDurations (toDecimal q ++ u.data) ([], [])
      = [(toDecimal q, u.data)] := by
    rw [groupDurations_digits (toDecimal q) u.data ([], []) (toDecimal_isDigit q)]
    have h2 := groupDurations_letters_end u.data (toDecimal q, ([] : List Char))
      hne (fun c hc => (hfacts c hc).1)
    simpa using h2
  simp only [fromStr, hfilter, hgroup]
  rfl

theorem fromStr_decimal (q : Nat) (u : String) (hu : u ∈ unitSuffixes)
    (hq : q < U64_SIZE) (pd : Duration) (hpd : periodDuration q u = .ok pd)
    (hs : pd.secs < U64_SIZE) (hn : pd.nanos < SECOND_IN_NANO) :
    fromStr (natToString q ++ u) = .ok pd := by
  have hpd2 : periodDuration q (String.mk u.data) = .ok pd := hpd
  simp only [fromStr_single q u hu, accumGroups, parseU64_toDecimal hq, hpd2,
    zero_checkedAdd hs hn]

theorem intoString_eq_parts (d : Duration) :
    intoString d = natToString (formatParts d).1 ++ (formatParts d).2 := by
  simp only [intoString, formatParts]
  split_ifs <;> rfl

theorem roundTrip (d : Duration) (hsecs : d.secs < U64_SIZE)
    (hnanos : d.nanos < SECOND_IN_NANO) (hfit : (formatParts d).1 < U64_SIZE) :
    fromStr (intoString d) = .ok d := by
  rw [intoString_eq_parts]
  simp only [formatParts] at hfit ⊢
  split_ifs at hfit ⊢ with h1 h2 h3 h4 h5 h6 h7 h8 <;> dsimp only at hfit ⊢
  · have hkey : d.asNanos / YEAR_IN_NANO * YEAR_IN_SECONDS = d.secs ∧ d.nanos = 0 := by
      have hns : d.asNanos = d.secs * 1000000000 + d.nanos := rfl
      have hdvd : d.asNanos % 31556926000000000 = 0 := h1
      have hnn : d.nanos < 1000000000 := hnanos
      show d.asNanos / 31556926000000000 * 31556926 = d.secs ∧ d.nanos = 0
      omega
    have hmul : d.asNanos / YEAR_IN_NANO * YEAR_IN_SECONDS < U64_SIZE := by
      rw [hkey.1]; exact hsecs
    rw [fromStr_decimal (d.asNanos / YEAR_IN_NANO) "y" (by decide) hfit
      ⟨d.asNanos / YEAR_IN_NANO * YEAR_IN_SECONDS, 0⟩
      (by rw [periodDuration_y]; exact multiplyPeriod_eq_ok hmul)
      hmul (by show (0 : Nat) < SECOND_IN_NANO; decide)]
    cases d with
    | mk secs nanos =>
      simp only [Except.ok.injEq, Duration.mk.injEq]
      exact ⟨hkey.1, hkey.2.symm⟩
  · have hkey : d.asNanos / WEEK_IN_NANO * WEEK_IN_SECONDS = d.secs ∧ d.nanos = 0 := by
      have hns : d.asNanos = d.secs * 1000000000 + d.nanos := rfl
      have hdvd : d.asNanos % 604800000000000 = 0 := h2
      have hnn : d.nanos < 1000000000 := hnanos
      show d.asNanos / 604800000000000 * 604800 = d.secs ∧ d.nanos = 0
      omega
    have hmul : d.asNanos / WEEK_IN_NANO * WEEK_IN_SECONDS < U64_SIZE := by
      rw [hkey.1]; exact hsecs
    rw [fromStr_decimal (d.asNanos / WEEK_IN_NANO) "w" (by decide) hfit
      ⟨d.asNanos / WEEK_IN_NANO * WEEK_IN_SECONDS, 0⟩
      (by rw [periodDuration_w]; exact multiplyPeriod_eq_ok hmul)
      hmul (by show (0 : Nat) < SECOND_IN_NANO; decide)]
    cases d with
    | mk secs nanos =>
      simp only [Except.ok.injEq, Duration.mk.injEq]
      exact ⟨hkey.1, hkey.2.symm⟩
  · have hkey : d.asNanos / DAY_IN_NANO * DAY_IN_SECONDS = d.secs ∧ d.nanos = 0 := by
      have hns : d.asNanos = d.secs * 1000000000 + d.nanos := rfl
      have hdvd : d.asNanos % 86400000000000 = 0 := h3
      have hnn : d.nanos < 1000000000 := hnanos
      show d.asNanos / 86400000000000 * 86400 = d.secs ∧ d.nanos = 0
      omega
    have hmul : d.asNanos / DAY_IN_NANO * DAY_IN_SECONDS < U64_SIZE := by
      rw [hkey.1]; exact hsecs
    rw [fromStr_decimal (d.asNanos / DAY_IN_NANO) "d" (by decide) hfit
      ⟨d.asNanos / DAY_IN_NANO * DAY_IN_SECONDS, 0⟩
      (by rw [periodDuration_d]; exact multiplyPeriod_eq_ok hmul)
      hmul (by show (0 : Nat) < SECOND_IN_NANO; decide)]
    cases d with
    | mk secs nanos =>
      simp only [Except.ok.injEq, Duration.mk.injEq]
      exact ⟨hkey.1, hkey.2.symm⟩
  · have hkey : d.asNanos / HOUR_IN_NANO * HOUR_IN_SECONDS = d.secs ∧ d.nanos = 0 := by
      have hns : d.asNanos = d.secs * 1000000000 + d.nanos := rfl
      have hdvd : d.asNanos % 3600000000000 = 0 := h4
      have hnn : d.nanos < 1000000000 := hnanos
      show d.asNanos / 3600000000000 * 3600 = d.secs ∧ d.nanos = 0
      omega
    have hmul : d.asNanos / HOUR_IN_NANO * HOUR_IN_SECONDS < U64_SIZE := by
      rw [hkey.1]; exact hsecs
    rw [fromStr_decimal (d.asNanos / HOUR_IN_NANO) "h" (by decide) hfit
      ⟨d.asNanos / HOUR_IN_NANO * HOUR_IN_SECONDS, 0⟩
      (by rw [periodDuration_h]; exact multiplyPeriod_eq_ok hmul)
      hmul (by show (0 : Nat) < SECOND_IN_NANO; decide)]
    cases d with
    | mk secs nanos =>
      simp only [Except.ok.injEq, Duration.mk.injEq]
      exact ⟨hkey.1, hkey.2.symm⟩
  · have hkey : d.asNanos / MINUTE_IN_NANO * MINUTE_IN_SECONDS = d.secs ∧ d.nanos = 0 := by
      have hns : d.asNanos = d.secs * 1000000000 + d.nanos := rfl
      have hdvd : d.asNanos % 60000000000 = 0 := h5
      have hnn : d.nanos < 1000000000 := hnanos
      show d.asNanos / 60000000000 * 60 = d.secs ∧ d.nanos = 0
      omega
    have hmul : d.asNanos / MINUTE_IN_NANO * MINUTE_IN_SECONDS < U64_SIZE := by
      rw [hkey.1]; exact hsecs
    rw [fromStr_decimal (d.asNanos / MINUTE_IN_NANO) "m" (by decide) hfit
      ⟨d.asNanos / MINUTE_IN_NANO * MINUTE_IN_SECONDS, 0⟩
      (by rw [periodDuration_m]; exact multiplyPeriod_eq_ok hmul)
      hmul (by show (0 : Nat) < SECOND_IN_NANO; decide)]
    cases d with
    | mk secs nanos =>
      simp only [Except.ok.injEq, Duration.mk.injEq]
      exact ⟨hkey.1, hkey.2.symm⟩
  · have hkey : Duration.fromSecs (d.asNanos / SECOND_IN_NANO) = d := by
      have hns : d.asNanos = d.secs * 1000000000 + d.nanos := rfl
      have hdvd : d.asNanos % 1000000000 = 0 := h6
      have hnn : d.nanos < 1000000000 := hnanos
      have hs2 : d.asNanos / 1000000000 = d.secs := by omega
      have hn2 : d.nanos = 0 := by omega
      show (⟨d.asNanos / 1000000000, 0⟩ : Duration) = d
      rw [hs2, ← hn2]
    rw [fromStr_decimal (d.asNanos / SECOND_IN_NANO) "s" (by decide) hfit
      (Duration.fromSecs (d.asNanos / SECOND_IN_NANO))
      (periodDuration_s _)
      (lt_of_le_of_lt (fromSecs_secs_le _) hfit)
      (fromSecs_nanos_lt _), hkey]
  · have hkey : Duration.fromMillis (d.asNanos / MILLISECOND_IN_NANO) = d := by
      have hns : d.asNanos = d.secs * 1000000000 + d.nanos := rfl
      have hdvd : d.asNanos % 1000000 = 0 := h7
      have hnn : d.nanos < 1000000000 := hnanos
      have hs2 : d.asNanos / 1000000 / 1000 = d.secs := by omega
      have hn2 : d.asNanos / 1000000 % 1000 * 1000000 = d.nanos := by omega
      show (⟨d.asNanos / 1000000 / 1000, d.asNanos / 1000000 % 1000 * 1000000⟩ : Duration) = d
      rw [hs2, hn2]
    rw [fromStr_decimal (d.asNanos / MILLISECOND_IN_NANO) "ms" (by decide) hfit
      (Duration.fromMillis (d.asNanos / MILLISECOND_IN_NANO))
      (periodDuration_ms _)
      (lt_of_le_of_lt (fromMillis_secs_le _) hfit)
      (fromMillis_nanos_lt _), hkey]
  · have hkey : Duration.fromMicros (d.asNanos / MICROSECOND_IN_NANO) = d := by
      have hns : d.asNanos = d.secs * 1000000000 + d.nanos := rfl
      have hdvd : d.asNanos % 1000 = 0 := h8
      have hnn : d.nanos < 1000000000 := hnanos
      have hs2 : d.asNanos / 1000 / 1000000 = d.secs := by omega
      have hn2 : d.asNanos / 1000 % 1000000 * 1000 = d.nanos := by omega
      show (⟨d.asNanos / 1000 / 1000000, d.asNanos / 1000 % 1000000 * 1000⟩ : Duration) = d
      rw [hs2, hn2]
    rw [fromStr_decimal (d.asNanos / MICROSECOND_IN_NANO) "us" (by decide) hfit
      (Duration.fromMicros (d.asNanos / MICROSECOND_IN_NANO))
      (periodDuration_us _)
      (lt_of_le_of_lt (fromMicros_secs_le _) hfit)
      (fromMicros_nanos_lt _), hkey]
  · have hkey : Duration.fromNanos d.asNanos = d := by
      have hns : d.asNanos = d.secs * 1000000000 + d.nanos := rfl
      have hnn : d.nanos < 1000000000 := hnanos
      have hs2 : d.asNanos / 1000000000 = d.secs := by omega
      have hn2 : d.asNanos % 1000000000 = d.nanos := by omega
      show (⟨d.asNanos / 1000000000, d.asNanos % 1000000000⟩ : Duration) = d
      rw [hs2, hn2]
    rw [fromStr_decimal d.asNanos "ns" (by decide) hfit
      (Duration.fromNanos d.asNanos)
      (periodDuration_ns _)
      (lt_of_le_of_lt (fromNanos_secs_le _) hfit)
      (fromNanos_nanos_lt _), hkey]

theorem intoString_eq_formatSpec (d : Duration) : intoString d = formatSpec d := by
  simp only [intoString, formatSpec, unitTable]
  by_cases h1 : d.asNanos % YEAR_IN_NANO = 0
  · rw [if_pos h1, List.find?_cons_of_pos _ (by simp [h1])]
  rw [if_neg h1, List.find?_cons_of_neg _ (by simp [h1])]
  by_cases h2 : d.asNanos % WEEK_IN_NANO = 0
  · rw [if_pos h2, List.find?_cons_of_pos _ (by simp [h2])]
  rw [if_neg h2, List.find?_cons_of_neg _ (by simp [h2])]
  by_cases h3 : d.asNanos % DAY_IN_NANO = 0
  · rw [if_pos h3, List.find?_cons_of_pos _ (by simp [h3])]
  rw [if_neg h3, List.find?_cons_of_neg _ (by simp [h3])]
  by_cases h4 : d.asNanos % HOUR_IN_NANO = 0
  · rw [if_pos h4, List.find?_cons_of_pos _ (by simp [h4])]
  rw [if_neg h4, List.find?_cons_of_neg _ (by simp [h4])]
  by_cases h5 : d.asNanos % MINUTE_IN_NANO = 0
  · rw [if_pos h5, List.find?_cons_of_pos _ (by simp [h5])]
  rw [if_neg h5, List.find?_cons_of_neg _ (by simp [h5])]
  by_cases h6 : d.asNanos % SECOND_IN_NANO = 0
  · rw [if_pos h6, List.find?_cons_of_pos _ (by simp [h6])]
  rw [if_neg h6, List.find?_cons_of_neg _ (by simp [h6])]
  by_cases h7 : d.asNanos % MILLISECOND_IN_NANO = 0
  · rw [if_pos h7, List.find?_cons_of_pos _ (by simp [h7])]
  rw [if_neg h7, List.find?_cons_of_neg _ (by simp [h7])]
  by_cases h8 : d.asNanos % MICROSECOND_IN_NANO = 0
  · rw [if_pos h8, List.find?_cons_of_pos _ (by simp [h8])]
  rw [if_neg h8, List.find?_cons_of_neg _ (by simp [h8])]
  rfl

theorem parseU64Core_lt (cs : List Char) : ∀ acc p : Nat, cs ≠ [] →
    parseU64Core cs acc = .ok p → p < U64_SIZE := by
  induction cs with
  | nil => intro acc p hne _; exact absurd rfl hne
  | cons c cs ih =>
    intro acc p _ h
    rw [parseU64Core] at h
    by_cases hc : c.isDigit
    · rw [if_pos hc] at h
      by_cases hb : acc * 10 + (c.toNat - 48) < U64_SIZE
      · rw [if_pos hb] at h
        cases cs with
        | nil =>
          rw [parseU64Core] at h
          rw [← Except.ok.inj h]
          exact hb
        | cons c2 cs2 => exact ih _ p (by simp) h
      · rw [if_neg hb] at h; cases h
    · rw [if_neg hc] at h; cases h

theorem parseU64_ok_lt {cs : List Char} {p : Nat} (h : parseU64 cs = .ok p) :
    p < U64_SIZE := by
  cases cs with
  | nil => cases h
  | cons c cs2 => exact parseU64Core_lt (c :: cs2) 0 p (by simp) h

theorem fromStr_digits_suffix (D : List Char) (u : String) (hu : u ∈ unitSuffixes)
    (hD : ∀ c ∈ D, c.isDigit = true) :
    fromStr (String.mk (D ++ u.data))
      = accumGroups [(D, u.data)] Duration.zero := by
  obtain ⟨hne, hfacts⟩ := suffix_data_facts hu
  have hfilter : ((String.mk (D ++ u.data)).data.filter fun c => !c.isWhitespace)
      = D ++ u.data := by
    apply filter_not_ws
    intro c hc
    rcases List.mem_append.mp hc with hc | hc
    · exact isDigit_not_whitespace (hD c hc)
    · exact (hfacts c hc).2
  have hgroup : groupDurations (D ++ u.data) ([], []) = [(D, u.data)] := by
    rw [groupDurations_digits D u.data ([], []) hD]
    have h2 := groupDurations_letters_end u.data (D, ([] : List Char))
      hne (fun c hc => (hfacts c hc).1)
    simpa using h2
  simp only [fromStr, hfilter, hgroup]
  rfl

theorem fromStr_single_inv {D : List Char} {u : String} {d1 : Duration}
    (hu : u ∈ unitSuffixes) (hD : ∀ c ∈ D, c.isDigit = true)
    (h : fromStr (String.mk (D ++ u.data)) = .ok d1) :
    ∃ p, parseU64 D = .ok p ∧ periodDuration p u = .ok d1 := by
  rw [fromStr_digits_suffix D u hu hD] at h
  cases hp : parseU64 D with
  | error e =>
    simp only [accumGroups, hp] at h
    exact Except.noConfusion h
  | ok p =>
    cases hpd : periodDuration p (String.mk u.data) with
    | error e =>
      simp only [accumGroups, hp, hpd] at h
      exact Except.noConfusion h
    | ok pd =>
      cases hadd : Duration.zero.checkedAdd pd with
      | none =>
        simp only [accumGroups, hp, hpd, hadd] at h
        exact Except.noConfusion h
      | some t =>
        simp only [accumGroups, hp, hpd, hadd] at h
        have hnlt := periodDuration_nanos_lt hpd
        obtain ⟨htp, hplt⟩ := zero_checkedAdd_inv hnlt hadd
        have ht : t = d1 := by simpa using h
        refine ⟨p, rfl, ?_⟩
        rw [← ht, htp]
        exact hpd

theorem fromStr_two_components (D1 D2 : List Char) (u1 u2 : String)
    (hu1 : u1 ∈ unitSuffixes) (hu2 : u2 ∈ unitSuffixes)
    (hD1 : ∀ c ∈ D1, c.isDigit = true) (hD2 : ∀ c ∈ D2, c.isDigit = true)
    (hD2ne : D2 ≠ []) :
    fromStr (String.mk (D1 ++ u1.data ++ (D2 ++ u2.data)))
      = accumGroups [(D1, u1.data), (D2, u2.data)] Duration.zero := by
  obtain ⟨hne1, hfacts1⟩ := suffix_data_facts hu1
  obtain ⟨hne2, hfacts2⟩ := suffix_data_facts hu2
  obtain ⟨c2, D2tl, hD2eq⟩ := List.exists_cons_of_ne_nil hD2ne
  have hfilter : ((String.mk (D1 ++ u1.data ++ (D2 ++ u2.data))).data.filter
      fun c => !c.isWhitespace) = D1 ++ u1.data ++ (D2 ++ u2.data) := by
    apply filter_not_ws
    intro c hc
    rcases List.mem_append.mp hc with hc | hc
    · rcases List.mem_append.mp hc with hc | hc
      · exact isDigit_not_whitespace (hD1 c hc)
      · exact (hfacts1 c hc).2
    · rcases List.mem_append.mp hc with hc | hc
      · exact isDigit_not_whitespace (hD2 c hc)
      · exact (hfacts2 c hc).2
  have hgroup : groupDurations (D1 ++ u1.data ++ (D2 ++ u2.data)) ([], [])
      = [(D1, u1.data), (D2, u2.data)] := by
    rw [List.append_assoc,
      groupDurations_digits D1 (u1.data ++ (D2 ++ u2.data)) ([], []) hD1]
    have hc2dig : c2.isDigit = true := by
      apply hD2
      rw [hD2eq]
      exact List.mem_cons_self c2 D2tl
    have hcont := groupDurations_letters_cont u1.data c2 (D2tl ++ u2.data)
      (([] : List Char) ++ D1, ([] : List Char)) hne1
      (fun c hc => (hfacts1 c hc).1) hc2dig
    rw [hD2eq, List.cons_append, hcont, ← List.cons_append, ← hD2eq,
      groupDurations_digits D2 u2.data ([], []) hD2]
    have hend := groupDurations_letters_end u2.data
      (([] : List Char) ++ D2, ([] : List Char)) hne2
      (fun c hc => (hfacts2 c hc).1)
    rw [hend]
    simp
  simp only [fromStr, hfilter, hgroup]
  have : ¬ ([(D1, u1.data), (D2, u2.data)] : List Group).isEmpty = true := by simp
  rw [if_neg this]


/-- Claim C1, counterexample: the round trip is NOT unconditional. The
representable duration with 18446744073709551615 seconds and 1 nanosecond
formats as a 29-digit nanosecond count, which exceeds `u64::MAX` and fails
to re-parse with an integer-parse overflow error instead of reproducing the
original duration. -/
theorem claim1_counterexample :
    (⟨18446744073709551615, 1⟩ : Duration).wf ∧
    fromStr (intoString ⟨18446744073709551615, 1⟩)
      = .error (.ParseInt .PosOverflow) := by
  refine ⟨by decide, by decide⟩

/-- Claim C1 (amended): for every well-formed duration whose emitted
magnitude fits in a `u64`, parsing the string produced by the formatter
succeeds and yields exactly the original duration. -/
theorem claim1_roundTrip (d : Duration) (hwf : d.wf)
    (hfit : (formatParts d).1 < U64_SIZE) : fromStr (intoString d) = .ok d :=
  roundTrip d hwf.1 hwf.2 hfit

/-- Claim C1 witness: the amended round trip at 61.5 seconds (which formats
through the millisecond branch as "61500ms"). -/
theorem claim1_roundTrip_witness :
    (⟨61, 500000000⟩ : Duration).wf ∧
    (formatParts ⟨61, 500000000⟩).1 < U64_SIZE ∧
    fromStr (intoString ⟨61, 500000000⟩) = .ok ⟨61, 500000000⟩ :=
  ⟨by decide, by decide, claim1_roundTrip ⟨61, 500000000⟩ (by decide) (by decide)⟩

/-- Claim C2, counterexample: the empty input does NOT produce a Format
error; the group vector is initialised with one (empty, empty) group, so the
unreachable emptiness check is skipped and the empty digit run reaches the
integer parser, which reports an Empty integer-parse error. -/
theorem claim2_counterexample :
    fromStr "" = .error (.ParseInt .Empty) ∧
    fromStr "\t \n" = .error (.ParseInt .Empty) ∧
    Error.ParseInt .Empty ≠ Error.Format := by
  refine ⟨by decide, by decide, by decide⟩

/-- Claim C2 (amended): an input that is empty, or becomes empty after
stripping all whitespace, parses to an IntegerParse (empty magnitude) error,
not a Format error. -/
theorem claim2_empty_parseInt (s : String)
    (h : s.data.filter (fun c => !c.isWhitespace) = []) :
    fromStr s = .error (.ParseInt .Empty) := by
  simp only [fromStr, h]
  rfl

/-- Claim C2 witness: the amended statement applied to a whitespace-only
input. -/
theorem claim2_empty_parseInt_witness :
    " ".data.filter (fun c => !c.isWhitespace) = [] ∧
    fromStr " " = .error (.ParseInt .Empty) :=
  ⟨by decide, claim2_empty_parseInt " " (by decide)⟩

/-- Claim C3: the formatter is total (it is a plain function into String),
agrees for every duration with the spec's description — scan the unit table
from largest to smallest and emit quotient plus suffix for the first unit
dividing the nanosecond count exactly, falling back to raw nanoseconds — and
in particular maps 60000 milliseconds to "1m" and 61000 milliseconds to
"61s". -/
theorem claim3_formatter :
    (∀ d : Duration, intoString d = formatSpec d) ∧
    intoString (Duration.fromMillis 60000) = "1m" ∧
    intoString (Duration.fromMillis 61000) = "61s" :=
  ⟨intoString_eq_formatSpec, by decide, by decide⟩

/-- Claim C4: a bare number with no unit ("1234") fails with a Format error,
a bare unit with no number ("ms") fails with an IntegerParse (empty) error,
and the two error kinds are distinct. -/
theorem claim4_malformed :
    fromStr "1234" = .error .Format ∧
    fromStr "ms" = .error (.ParseInt .Empty) ∧
    (∀ k, Error.Format ≠ Error.ParseInt k) :=
  ⟨by decide, by decide, fun _ h => Error.noConfusion h⟩

/-- Claim C5: magnitude 584554530873 with unit y overflows the seconds-first
scaling (584554530873 × 31556926 ≥ 2^64) and yields the Overflow error;
one year less still fits, pinning the overflow boundary to the
seconds-domain multiplication; and cross-component addition overflow
("584554530872y 29w") also yields the Overflow error. -/
theorem claim5_overflow :
    fromStr "584554530873y" = .error .Overflow ∧
    fromStr "584554530872y" = .ok ⟨584554530872 * 31556926, 0⟩ ∧
    fromStr "584554530872y 29w" = .error .Overflow := by
  refine ⟨by decide, by decide, by decide⟩

/-- Claim C6: for two single components with distinct units that each parse
successfully on their own, the concatenation parses the same in either order
and equals the checked Duration sum of the two component values, provided
that sum does not overflow. -/
theorem claim6_order_independence (D1 D2 : List Char) (u1 u2 : String)
    (d1 d2 d : Duration)
    (hD1 : ∀ c ∈ D1, c.isDigit = true) (hD2 : ∀ c ∈ D2, c.isDigit = true)
    (hD1ne : D1 ≠ []) (hD2ne : D2 ≠ [])
    (hu1 : u1 ∈ unitSuffixes) (hu2 : u2 ∈ unitSuffixes) (hne : u1 ≠ u2)
    (h1 : fromStr (String.mk (D1 ++ u1.data)) = .ok d1)
    (h2 : fromStr (String.mk (D2 ++ u2.data)) = .ok d2)
    (hadd : d1.checkedAdd d2 = some d) :
    fromStr (String.mk (D1 ++ u1.data ++ (D2 ++ u2.data))) = .ok d ∧
    fromStr (String.mk (D2 ++ u2.data ++ (D1 ++ u1.data))) = .ok d := by
  obtain ⟨p1, hp1, hpd1⟩ := fromStr_single_inv hu1 hD1 h1
  obtain ⟨p2, hp2, hpd2⟩ := fromStr_single_inv hu2 hD2 h2
  have hd1n := periodDuration_nanos_lt hpd1
  have hd2n := periodDuration_nanos_lt hpd2
  have hd1s := periodDuration_secs_lt hpd1 (parseU64_ok_lt hp1)
  have hd2s := periodDuration_secs_lt hpd2 (parseU64_ok_lt hp2)
  have hpd1m : periodDuration p1 (String.mk u1.data) = .ok d1 := hpd1
  have hpd2m : periodDuration p2 (String.mk u2.data) = .ok d2 := hpd2
  have hadd2 : d2.checkedAdd d1 = some d := by rw [checkedAdd_comm]; exact hadd
  constructor
  · rw [fromStr_two_components D1 D2 u1 u2 hu1 hu2 hD1 hD2 hD2ne]
    simp only [accumGroups, hp1, hpd1m, zero_checkedAdd hd1s hd1n, hp2, hpd2m,
      hadd]
  · rw [fromStr_two_components D2 D1 u2 u1 hu2 hu1 hD2 hD1 hD1ne]
    simp only [accumGroups, hp2, hpd2m, zero_checkedAdd hd2s hd2n, hp1, hpd1m,
      hadd2]

/-- Claim C6 witness: "1h" and "30m" concatenated in both orders parse to
5400 seconds, the sum of the two components. -/
theorem claim6_order_independence_witness :
    fromStr (String.mk (['1'] ++ "h".data ++ (['3', '0'] ++ "m".data)))
      = .ok ⟨5400, 0⟩ ∧
    fromStr (String.mk (['3', '0'] ++ "m".data ++ (['1'] ++ "h".data)))
      = .ok ⟨5400, 0⟩ :=
  claim6_order_independence ['1'] ['3', '0'] "h" "m" ⟨3600, 0⟩ ⟨1800, 0⟩
    ⟨5400, 0⟩ (by decide) (by decide) (by decide) (by decide) (by decide)
    (by decide) (by decide) (by decide) (by decide) (by decide)

/-- Claim C7: the parse result depends only on the whitespace-stripped
character sequence — whitespace may appear anywhere, including inside a
token — and in particular "1m 1s" and "1m1s" both parse to 61 seconds. -/
theorem claim7_whitespace :
    (∀ s t : String, s.data.filter (fun c => !c.isWhitespace)
        = t.data.filter (fun c => !c.isWhitespace) → fromStr s = fromStr t) ∧
    fromStr "1m 1s" = .ok ⟨61, 0⟩ ∧ fromStr "1m1s" = .ok ⟨61, 0⟩ := by
  refine ⟨?_, by decide, by decide⟩
  intro s t h
  simp only [fromStr, h]

/-- Claim C7 witness: whitespace insensitivity applied to "1h 30m" versus
"1h30m", including whitespace inside a token ("1 h" versus "1h"). -/
theorem claim7_whitespace_witness :
    fromStr "1h 30m" = fromStr "1h30m" ∧ fromStr "1 h" = fromStr "1h" :=
  ⟨claim7_whitespace.1 "1h 30m" "1h30m" (by decide),
   claim7_whitespace.1 "1 h" "1h" (by decide)⟩

/-- Claim C8: compound inputs parse to the sum of their components:
"1h30m" is 5400 seconds, "1h128m" is 11280 seconds, and "1ms100us" is
1100 microseconds (1100000 nanoseconds). -/
theorem claim8_compound :
    fromStr "1h30m" = .ok ⟨5400, 0⟩ ∧
    fromStr "1h128m" = .ok ⟨11280, 0⟩ ∧
    fromStr "1ms100us" = .ok ⟨0, 1100000⟩ := by
  refine ⟨by decide, by decide, by decide⟩

/-- Claim C9: the zero duration formats as "0y", because zero is divisible
by the year multiplier, the first unit tested. -/
theorem claim9_format_zero : intoString Duration.zero = "0y" := by decide

/-- Claim C10: the parse is total and panic-free: the verbatim translation
of the Rust grouping loop — in which every `last_mut().unwrap()` access is
modelled by an Option (`none` standing for a panic) — never produces `none`
on any input, and always returns exactly the value of the structural parser,
an `Except` that is either a Duration or one of the three errors. -/
theorem claim10_total (s : String) : fromStrLoop s = some (fromStr s) :=
  fromStrLoop_eq_fromStr s

end DurationString
